import Mathlib

/-!
# Verification of the AI-Sphere voice-assistant front end

A shallow embedding of the audio capture/recording pipeline
(`src/app/components/MicrophoneManager.tsx`), the presence reconnection
state machine (`src/app/store/usePresenceStore.ts`) and the session
memory service (`src/app/lib/memoryService.ts`), together with theorems
settling the specification's testable properties against the code.
-/

namespace AISphere

/-! ## Recording controller (`MicrophoneManager.tsx`)

Constants from `VAD_CONFIG`. -/

def minRecordingDuration : Nat := 500

def maxRecordingDuration : Nat := 60000

def minClipBytes : Nat := 1000

/-- A chunk pushed by `ondataavailable`; only its byte size matters here.
The handler pushes a chunk only when `event.data.size > 0`. -/
def chunkAccepted (size : Nat) : Bool := 0 < size

/-- The byte size of the `Blob` assembled from the accumulated chunks in
`mediaRecorder.onstop`: blob concatenation sums the part sizes. -/
def assembledSize (chunks : List Nat) : Nat := chunks.sum

/-- Embedding of `mediaRecorder.onstop` (MicrophoneManager.tsx lines
248-280): given the elapsed wall-clock duration, the accumulated chunk
sizes and whether `session?.access_token` is present, it returns
`some size` when the clip of that byte size is handed to `sendAudio`,
`none` when the handler returns without sending. -/
def onstopDeliver (duration : Nat) (chunks : List Nat) (hasToken : Bool) :
    Option Nat :=
  if duration < minRecordingDuration then none
  else if chunks.length = 0 then none
  else if assembledSize chunks < minClipBytes then none
  else if !hasToken then none
  else some (assembledSize chunks)

/-! State of the recording controller, as held in the React refs and
state hooks of `MicrophoneManager`. `recorderGen` counts `new
MediaRecorder(...)` constructions so that "no new MediaRecorder is
created" is expressible. -/

structure RecorderState where
  hasStream : Bool
  hasProcessor : Bool
  isRecording : Bool
  hasToken : Bool
  hasRecorder : Bool
  recorderGen : Nat
  chunks : List Nat
  recordingDuration : Nat
  silenceTimer : Bool
  recordingTimer : Bool
  maxDurationTimer : Bool
  deriving Repr, DecidableEq

/-- Embedding of `startRecording` (MicrophoneManager.tsx lines 222-307):
guarded by `if (!stream || !audioProcessorRef.current || isRecording ||
!session?.access_token) return;`; otherwise it resets the chunk buffer
and duration, creates a fresh `MediaRecorder`, and arms the duration and
max-duration timers. -/
def startRecording (s : RecorderState) : RecorderState :=
  if !s.hasStream || !s.hasProcessor || s.isRecording || !s.hasToken then s
  else
    { s with
      isRecording := true
      recordingDuration := 0
      chunks := []
      silenceTimer := false
      hasRecorder := true
      recorderGen := s.recorderGen + 1
      recordingTimer := true
      maxDurationTimer := true }

/-- Embedding of `stopRecording` (MicrophoneManager.tsx lines 159-175):
guarded by `if (!isRecording || !mediaRecorderRef.current) return;`;
otherwise it clears the three timers, stops the recorder and resets
`isRecording` and `recordingDuration`. -/
def stopRecording (s : RecorderState) : RecorderState :=
  if !s.isRecording || !s.hasRecorder then s
  else
    { s with
      silenceTimer := false
      recordingTimer := false
      maxDurationTimer := false
      isRecording := false
      recordingDuration := 0 }

/-! ## Audio processor (`MicrophoneManager.tsx`, class `AudioProcessor`)

`getVolume` reads the analyser's byte frequency data (each bin a byte in
`0..255`), normalizes each bin to `[0,1]`, computes the root mean square
and blends it with the previous smoothed value using
`VAD_CONFIG.volumeSmoothingFactor = 0.7`. -/

/-- `VAD_CONFIG.volumeSmoothingFactor`. -/
def volumeSmoothingFactor : ℝ := 0.7

/-- A frame of frequency-bin magnitudes is well formed when every bin is
a byte value (the data array is a `Uint8Array`). -/
def FrameOK (frame : List Nat) : Prop := ∀ b ∈ frame, b ≤ 255

/-- The root mean square of the normalized bin magnitudes, as computed
in `getVolume` (MicrophoneManager.tsx lines 68-73):
`sqrt ((Σ (bin/255)^2) / length)`. -/
noncomputable def rms (frame : List Nat) : ℝ :=
  Real.sqrt
    ((frame.map fun b : Nat => ((b : ℝ) / 255) ^ 2).sum / frame.length)

/-- One `getVolume` update of `smoothedVolume`
(MicrophoneManager.tsx lines 75-77):
`α · old + (1 − α) · rms` with `α = volumeSmoothingFactor`. -/
noncomputable def stepVolume (prev : ℝ) (frame : List Nat) : ℝ :=
  volumeSmoothingFactor * prev + (1 - volumeSmoothingFactor) * rms frame

/-- The smoothed volume after processing a sequence of frames, starting
from the field initializer `smoothedVolume = 0`. -/
noncomputable def smoothedVolume (frames : List (List Nat)) : ℝ :=
  frames.foldl stepVolume 0

/-! ## Presence store (`usePresenceStore.ts`)

The module-level globals (`globalChannel`, `isConnecting`, the three
timers, `reconnectAttempts`) and the Zustand store fields
(`connectionState`, `onlineUsers`, `currentUserId`, `channel`) are
gathered into one state record. Channel objects are identified by a
generation number; `channelGen` counts `supabase.channel(...)` calls so
that channel creation is observable. -/

inductive ConnectionState where
  | connected
  | reconnecting
  | offline
  deriving Repr, DecidableEq

structure PresenceUser where
  userId : String
  email : Option String
  name : Option String
  avatar : Option String
  joinedAt : String
  lastSeen : String
  deriving Repr, DecidableEq

/-- One entry of the raw `channel.presenceState()` snapshot.
`userId := none` models a presence payload whose `userId` field is
absent (the handler's `if (presence.userId)` check); `lastSeen := none`
models an absent `lastSeen`, which falls back to `joinedAt`. -/
structure RawPresence where
  userId : Option String
  email : Option String
  name : Option String
  avatar : Option String
  joinedAt : String
  lastSeen : Option String
  deriving Repr, DecidableEq

structure PresenceModule where
  isConnecting : Bool
  globalChannel : Option Nat
  channelGen : Nat
  reconnectTimer : Option ℚ
  heartbeatTimer : Bool
  keepAliveTimer : Bool
  reconnectAttempts : Nat
  connectionState : ConnectionState
  onlineUsers : List PresenceUser
  currentUserId : Option String
  channel : Option Nat
  deriving Repr, DecidableEq

def MAX_RECONNECT_ATTEMPTS : Nat := 100

/-- Embedding of `clearTimers` (usePresenceStore.ts lines 78-91). -/
def clearTimers (s : PresenceModule) : PresenceModule :=
  { s with reconnectTimer := none, heartbeatTimer := false,
           keepAliveTimer := false }

/-- Embedding of `getReconnectDelay` (usePresenceStore.ts lines 93-97):
`min(1000 · 2^reconnectAttempts, 30000) + Math.random() * 1000`, with
the `Math.random()` draw passed in as `rand ∈ [0,1)`. -/
def getReconnectDelay (reconnectAttempts : Nat) (rand : ℚ) : ℚ :=
  min (1000 * 2 ^ reconnectAttempts) 30000 + rand * 1000

/-- Embedding of the synchronous prefix of `connect`
(usePresenceStore.ts lines 107-152): return immediately when
`isConnecting` is set or no authenticated user exists; otherwise set the
guard flag and `reconnecting` state, clear all timers, tear down any
previous channel (`untrack` + `removeChannel`), and create a fresh
channel that becomes the single current `globalChannel`. -/
def connectStart (s : PresenceModule) (hasUser : Bool) : PresenceModule :=
  if s.isConnecting then s
  else if !hasUser then s
  else
    let s1 := clearTimers
      { s with isConnecting := true,
               connectionState := ConnectionState.reconnecting }
    let s2 := { s1 with globalChannel := none }
    { s2 with globalChannel := some (s.channelGen + 1),
              channelGen := s.channelGen + 1 }

/-- The four statuses the realtime client passes to the `subscribe`
callback. -/
inductive SubscribeStatus where
  | SUBSCRIBED
  | CHANNEL_ERROR
  | TIMED_OUT
  | CLOSED
  deriving Repr, DecidableEq

/-- Embedding of the `CHANNEL_ERROR`/`TIMED_OUT`/`CLOSED` branch of the
subscribe callback (usePresenceStore.ts lines 267-283): drop the
connecting guard, go `offline`, and — when the browser reports the
network online and the attempt counter is below the ceiling — increment
the counter first and then schedule a retry after `getReconnectDelay()`
computed from the already incremented counter. -/
def handleStatusDisconnect (s : PresenceModule) (online : Bool)
    (rand : ℚ) : PresenceModule :=
  if online = true ∧ s.reconnectAttempts < MAX_RECONNECT_ATTEMPTS then
    { s with isConnecting := false,
             connectionState := ConnectionState.offline,
             reconnectAttempts := s.reconnectAttempts + 1,
             reconnectTimer :=
               some (getReconnectDelay (s.reconnectAttempts + 1) rand) }
  else
    { s with isConnecting := false,
             connectionState := ConnectionState.offline }

/-- Embedding of the whole subscribe callback (usePresenceStore.ts
lines 193-284): on `SUBSCRIBED`, track presence, mark the store
connected, reset the guard and attempt counter and start the heartbeat
and keep-alive timers; on any of the three failure statuses, defer to
`handleStatusDisconnect`. -/
def subscribeCallback (s : PresenceModule) (status : SubscribeStatus)
    (online : Bool) (rand : ℚ) (uid : String) : PresenceModule :=
  match status with
  | SubscribeStatus.SUBSCRIBED =>
      { s with connectionState := ConnectionState.connected,
               currentUserId := some uid,
               channel := s.globalChannel,
               isConnecting := false,
               reconnectAttempts := 0,
               heartbeatTimer := true,
               keepAliveTimer := true }
  | _ => handleStatusDisconnect s online rand

/-- Embedding of the body of the presence `sync` handler's inner loop
(usePresenceStore.ts lines 171-182): a presence payload contributes an
entry exactly when its `userId` is present, with `lastSeen` defaulting
to `joinedAt`. -/
def toPresenceUser (p : RawPresence) : Option PresenceUser :=
  match p.userId with
  | none => none
  | some uid =>
      some { userId := uid, email := p.email, name := p.name,
             avatar := p.avatar, joinedAt := p.joinedAt,
             lastSeen := p.lastSeen.getD p.joinedAt }

/-- The flattened `users` array built by the `sync` handler
(usePresenceStore.ts lines 169-183): iterate the snapshot keys in
order, and within each key the tracked presences in order. -/
def flattenPresences (snapshot : List (String × List RawPresence)) :
    List PresenceUser :=
  snapshot.flatMap fun kv => kv.2.filterMap toPresenceUser

/-- Embedding of the `uniqueUsers` filter (usePresenceStore.ts lines
185-187): `users.filter((user, index, self) => index ===
self.findIndex((u) => u.userId === user.userId))` keeps the entry at
index `i` exactly when no entry before index `i` carries the same
`userId`, i.e. it keeps the first occurrence of each `userId`.
Embedded as a structural recursion carrying the set of `userId`s
already seen to the left of the current position. -/
def keepFirstAux (seen : List String) :
    List PresenceUser → List PresenceUser
  | [] => []
  | u :: rest =>
      if u.userId ∈ seen then keepFirstAux seen rest
      else u :: keepFirstAux (u.userId :: seen) rest

/-- The deduplicated `uniqueUsers` list written to `onlineUsers` by the
presence `sync` handler. -/
def uniqueUsers (users : List PresenceUser) : List PresenceUser :=
  keepFirstAux [] users

/-- The full `sync` handler (usePresenceStore.ts lines 165-190):
flatten the snapshot, then deduplicate by `userId`. -/
def syncOnlineUsers (snapshot : List (String × List RawPresence)) :
    List PresenceUser :=
  uniqueUsers (flattenPresences snapshot)

/-- Embedding of `disconnect` (usePresenceStore.ts lines 302-324):
drop the connecting guard, clear all three timers, untrack and remove
the current channel, and reset the store fields. -/
def disconnect (s : PresenceModule) : PresenceModule :=
  let s1 := clearTimers { s with isConnecting := false }
  let s2 := { s1 with globalChannel := none }
  { s2 with connectionState := ConnectionState.offline,
            onlineUsers := [],
            currentUserId := none,
            channel := none }

/-- Embedding of the `visibilitychange` listener (usePresenceStore.ts
lines 351-362): when the document becomes hidden, do nothing; when it
becomes visible, call `connect()` exactly when the connection state is
`offline`. The returned flag records whether `connect()` was invoked. -/
def onVisibilityChange (s : PresenceModule) (hidden hasUser : Bool) :
    PresenceModule × Bool :=
  if hidden then (s, false)
  else if s.connectionState = ConnectionState.offline then
    (connectStart s hasUser, true)
  else (s, false)

/-! ## Session memory service (`memoryService.ts`) -/

inductive TurnRole where
  | user
  | assistant
  deriving Repr, DecidableEq

structure ConversationTurn where
  role : TurnRole
  content : String
  intent : Option String
  timestamp : String
  toolsUsed : Option (List String)
  deriving Repr, DecidableEq

/-- The turns array written back by `SessionMemoryService.addTurn`
(memoryService.ts lines 104-115): push the new turn onto the stored
turns, then keep `turns.slice(-5)` — the last five entries. -/
def addTurnWrittenTurns (stored : List ConversationTurn)
    (turn : ConversationTurn) : List ConversationTurn :=
  let turns := stored ++ [turn]
  turns.drop (turns.length - 5)

/-! ## Concrete sample states used by the witnesses -/

def sampleUserId : String := "user-1"

def sampleFrame : List Nat := [0, 255]

def sampleRecorderBusy : RecorderState :=
  { hasStream := true, hasProcessor := true, isRecording := true,
    hasToken := true, hasRecorder := true, recorderGen := 3,
    chunks := [512], recordingDuration := 1200, silenceTimer := false,
    recordingTimer := true, maxDurationTimer := true }

def sampleRecorderIdle : RecorderState :=
  { hasStream := true, hasProcessor := true, isRecording := false,
    hasToken := true, hasRecorder := false, recorderGen := 0,
    chunks := [], recordingDuration := 0, silenceTimer := false,
    recordingTimer := false, maxDurationTimer := false }

def samplePresenceConnecting : PresenceModule :=
  { isConnecting := true, globalChannel := some 1, channelGen := 1,
    reconnectTimer := none, heartbeatTimer := false,
    keepAliveTimer := false, reconnectAttempts := 0,
    connectionState := ConnectionState.reconnecting, onlineUsers := [],
    currentUserId := none, channel := none }

def samplePresenceFresh : PresenceModule :=
  { isConnecting := false, globalChannel := some 1, channelGen := 1,
    reconnectTimer := none, heartbeatTimer := false,
    keepAliveTimer := false, reconnectAttempts := 0,
    connectionState := ConnectionState.reconnecting, onlineUsers := [],
    currentUserId := none, channel := none }

def sampleTime : String := "2026-01-01T00:00:00Z"

def sampleContent : String := "hello"

def sampleRawPresence : RawPresence :=
  { userId := some sampleUserId, email := none, name := none,
    avatar := none, joinedAt := sampleTime, lastSeen := none }

def sampleSnapshot : List (String × List RawPresence) :=
  [(sampleUserId, [sampleRawPresence, sampleRawPresence])]

def sampleTurn : ConversationTurn :=
  { role := TurnRole.user, content := sampleContent, intent := none,
    timestamp := sampleTime, toolsUsed := none }

def samplePresenceOffline : PresenceModule :=
  { isConnecting := false, globalChannel := none, channelGen := 1,
    reconnectTimer := none, heartbeatTimer := false,
    keepAliveTimer := false, reconnectAttempts := 2,
    connectionState := ConnectionState.offline, onlineUsers := [],
    currentUserId := none, channel := none }

/-! ## Theorems about the recording controller -/

/-- Exact characterization of when `onstop` delivers a clip. -/
theorem onstop_deliver_iff
    (duration : Nat) (chunks : List Nat) (hasToken : Bool) (size : Nat) :
    onstopDeliver duration chunks hasToken = some size ↔
      (minRecordingDuration ≤ duration ∧ chunks.length ≠ 0 ∧
        minClipBytes ≤ assembledSize chunks ∧ hasToken = true ∧
        size = assembledSize chunks) := by
  unfold onstopDeliver
  split_ifs with h1 h2 h3 h4
  · simp; omega
  · simp [h2]
  · simp; omega
  · simp at h4; simp [h4]
  · simp at h4
    constructor
    · intro h
      exact ⟨by omega, h2, by omega, h4, (Option.some_inj.mp h).symm⟩
    · intro h
      exact congrArg some h.2.2.2.2.symm

/-- C2: a finalized recording is delivered only when its duration is at
least 500 ms, its chunk list is non-empty and its assembled size is at
least 1000 bytes; a short recording is never delivered, and an
undersized recording is never delivered even when its duration is
at least 500 ms. -/
theorem onstop_delivery_validation
    (duration : Nat) (chunks : List Nat) (hasToken : Bool) :
    (∀ size, onstopDeliver duration chunks hasToken = some size →
      minRecordingDuration ≤ duration ∧ chunks ≠ [] ∧
        minClipBytes ≤ assembledSize chunks ∧ size = assembledSize chunks) ∧
    (duration < minRecordingDuration →
      onstopDeliver duration chunks hasToken = none) ∧
    (assembledSize chunks < minClipBytes →
      onstopDeliver duration chunks hasToken = none) := by
  refine ⟨?_, ?_, ?_⟩
  · intro size h
    rw [onstop_deliver_iff] at h
    refine ⟨h.1, ?_, h.2.2.1, h.2.2.2.2⟩
    intro hnil
    exact h.2.1 (by simp [hnil])
  · intro h
    cases hd : onstopDeliver duration chunks hasToken with
    | none => rfl
    | some size =>
        rw [onstop_deliver_iff] at hd
        omega
  · intro h
    cases hd : onstopDeliver duration chunks hasToken with
    | none => rfl
    | some size =>
        rw [onstop_deliver_iff] at hd
        omega

/-- C3: starting while already recording changes nothing, and stopping
while not recording changes nothing. -/
theorem recording_mutual_exclusion (s : RecorderState) :
    (s.isRecording = true → startRecording s = s) ∧
    (s.isRecording = false → stopRecording s = s) := by
  constructor
  · intro h
    unfold startRecording
    simp [h]
  · intro h
    unfold stopRecording
    simp [h]

theorem onstop_delivery_validation_witness :
    onstopDeliver 300 [1500] true = none :=
  (onstop_delivery_validation 300 [1500] true).2.1 (by decide)

theorem recording_mutual_exclusion_witness :
    sampleRecorderBusy.isRecording = true ∧
      startRecording sampleRecorderBusy = sampleRecorderBusy :=
  ⟨by decide, (recording_mutual_exclusion sampleRecorderBusy).1 (by decide)⟩

/-! ## Theorems about the presence store -/

/-- C4: a `connect()` call made while the module-level `isConnecting`
flag is true returns without creating a second channel or modifying any
connection state. -/
theorem connect_while_connecting_noop (s : PresenceModule)
    (hasUser : Bool) (h : s.isConnecting = true) :
    connectStart s hasUser = s := by
  unfold connectStart
  simp [h]

theorem connect_while_connecting_noop_witness :
    samplePresenceConnecting.isConnecting = true ∧
      connectStart samplePresenceConnecting true = samplePresenceConnecting :=
  ⟨by decide,
   connect_while_connecting_noop samplePresenceConnecting true (by decide)⟩

/-- C5: after a `CHANNEL_ERROR`/`TIMED_OUT`/`CLOSED` status with the
network online, the counter is incremented to `k` and the scheduled
delay equals `min(1000·2^k, 30000)` plus a jitter in `[0, 1000)`;
once the counter has reached the ceiling of 100 attempts, no retry is
scheduled and the counter stays put. -/
theorem reconnect_backoff_schedule (s : PresenceModule)
    (status : SubscribeStatus) (rand : ℚ) (uid : String)
    (hs : status ≠ SubscribeStatus.SUBSCRIBED)
    (h0 : 0 ≤ rand) (h1 : rand < 1) :
    (s.reconnectAttempts < MAX_RECONNECT_ATTEMPTS →
      (subscribeCallback s status true rand uid).reconnectAttempts =
          s.reconnectAttempts + 1 ∧
      (subscribeCallback s status true rand uid).reconnectTimer =
          some (min (1000 * 2 ^ (s.reconnectAttempts + 1)) 30000 +
            rand * 1000) ∧
      0 ≤ rand * 1000 ∧ rand * 1000 < 1000) ∧
    (MAX_RECONNECT_ATTEMPTS ≤ s.reconnectAttempts →
      (subscribeCallback s status true rand uid).reconnectTimer =
          s.reconnectTimer ∧
      (subscribeCallback s status true rand uid).reconnectAttempts =
          s.reconnectAttempts) := by
  have hcb : subscribeCallback s status true rand uid =
      handleStatusDisconnect s true rand := by
    cases status with
    | SUBSCRIBED => exact absurd rfl hs
    | CHANNEL_ERROR => rfl
    | TIMED_OUT => rfl
    | CLOSED => rfl
  constructor
  · intro hlt
    rw [hcb]
    unfold handleStatusDisconnect
    simp only [hlt, and_true]
    refine ⟨by simp, ?_, by positivity, by linarith⟩
    simp [getReconnectDelay]
  · intro hge
    rw [hcb]
    unfold handleStatusDisconnect
    have : ¬ s.reconnectAttempts < MAX_RECONNECT_ATTEMPTS := by omega
    simp [this]

theorem reconnect_backoff_schedule_witness :
    (subscribeCallback samplePresenceFresh SubscribeStatus.CLOSED true 0
        sampleUserId).reconnectAttempts = 1 := by
  have h := (reconnect_backoff_schedule samplePresenceFresh
    SubscribeStatus.CLOSED 0 sampleUserId (by decide) (by norm_num)
    (by norm_num)).1 (by decide)
  simpa [samplePresenceFresh] using h.1

/-- C6 counterexample: with the attempt counter at 0, network online and
a `Math.random()` draw of one half, the `CLOSED` branch schedules the
retry after 2500 ms — the counter is incremented to 1 before the delay
is computed, so the delay is not below 2000 ms and in particular not in
the claimed `[1000, 2000)` window. -/
theorem first_retry_delay_counterexample :
    samplePresenceFresh.reconnectAttempts = 0 ∧
    (subscribeCallback samplePresenceFresh SubscribeStatus.CLOSED true
        (1 / 2) sampleUserId).reconnectTimer = some 2500 ∧
    ¬ ((2500 : ℚ) < 2000) := by
  refine ⟨rfl, ?_, by norm_num⟩
  simp [subscribeCallback, handleStatusDisconnect, getReconnectDelay,
    MAX_RECONNECT_ATTEMPTS, samplePresenceFresh]
  norm_num

/-- C6 (amended): when the subscribe callback reports `CLOSED` with the
network online and the attempt counter at 0, the connection state
becomes `offline`, the counter becomes 1 and a retry is scheduled with
a delay in `[2000, 3000)` milliseconds. -/
theorem closed_at_zero_attempts_schedules_retry (s : PresenceModule)
    (rand : ℚ) (uid : String) (hatt : s.reconnectAttempts = 0)
    (h0 : 0 ≤ rand) (h1 : rand < 1) :
    (subscribeCallback s SubscribeStatus.CLOSED true rand
        uid).connectionState = ConnectionState.offline ∧
    (subscribeCallback s SubscribeStatus.CLOSED true rand
        uid).reconnectAttempts = 1 ∧
    ∃ d, (subscribeCallback s SubscribeStatus.CLOSED true rand
        uid).reconnectTimer = some d ∧ 2000 ≤ d ∧ d < 3000 := by
  have hcb : subscribeCallback s SubscribeStatus.CLOSED true rand uid =
      handleStatusDisconnect s true rand := rfl
  rw [hcb]
  unfold handleStatusDisconnect
  have hlt : s.reconnectAttempts < MAX_RECONNECT_ATTEMPTS := by
    rw [hatt]; decide
  rw [if_pos ⟨rfl, hlt⟩]
  refine ⟨rfl, by simp [hatt], ?_⟩
  refine ⟨getReconnectDelay (s.reconnectAttempts + 1) rand, rfl, ?_, ?_⟩
  · unfold getReconnectDelay
    rw [hatt]
    have hm : min ((1000 : ℚ) * 2 ^ (0 + 1)) 30000 = 2000 := by norm_num
    rw [hm]
    linarith
  · unfold getReconnectDelay
    rw [hatt]
    have hm : min ((1000 : ℚ) * 2 ^ (0 + 1)) 30000 = 2000 := by norm_num
    rw [hm]
    linarith

theorem closed_at_zero_attempts_schedules_retry_witness :
    (subscribeCallback samplePresenceFresh SubscribeStatus.CLOSED true 0
        sampleUserId).connectionState = ConnectionState.offline := by
  have h := closed_at_zero_attempts_schedules_retry samplePresenceFresh
    0 sampleUserId (by decide) (by norm_num) (by norm_num)
  exact h.1

/-! ## Deduplication lemmas for the presence sync handler -/

theorem keepFirstAux_ids_nodup (l : List PresenceUser) :
    ∀ seen : List String,
      ((keepFirstAux seen l).map PresenceUser.userId).Nodup ∧
      ∀ u ∈ keepFirstAux seen l, u.userId ∉ seen := by
  induction l with
  | nil => intro seen; simp [keepFirstAux]
  | cons u rest ih =>
      intro seen
      unfold keepFirstAux
      by_cases h : u.userId ∈ seen
      · simpa [h] using ih seen
      · have ihr := ih (u.userId :: seen)
        rw [if_neg h]
        refine ⟨?_, ?_⟩
        · rw [List.map_cons, List.nodup_cons]
          refine ⟨?_, ihr.1⟩
          intro hmem
          obtain ⟨v, hv, hveq⟩ := List.mem_map.mp hmem
          exact (ihr.2 v hv) (by rw [hveq]; exact List.mem_cons_self _ _)
        · intro v hv
          rcases List.mem_cons.mp hv with rfl | hv'
          · exact h
          · intro hvs
            exact (ihr.2 v hv') (List.mem_cons_of_mem _ hvs)

theorem keepFirstAux_mem_ids (l : List PresenceUser) :
    ∀ (seen : List String) (id : String),
      id ∈ (keepFirstAux seen l).map PresenceUser.userId ↔
        id ∉ seen ∧ id ∈ l.map PresenceUser.userId := by
  induction l with
  | nil => intro seen id; simp [keepFirstAux]
  | cons u rest ih =>
      intro seen id
      unfold keepFirstAux
      by_cases h : u.userId ∈ seen
      · rw [if_pos h, ih seen id, List.map_cons, List.mem_cons]
        constructor
        · rintro ⟨hns, hmem⟩
          exact ⟨hns, Or.inr hmem⟩
        · rintro ⟨hns, hmem⟩
          rcases hmem with heq | hmem'
          · exact absurd (heq.symm ▸ h) hns
          · exact ⟨hns, hmem'⟩
      · rw [if_neg h]
        by_cases hid : id = u.userId
        · subst hid
          simp [h]
        · rw [List.map_cons, List.mem_cons]
          rw [List.map_cons, List.mem_cons]
          rw [ih (u.userId :: seen) id]
          simp only [List.mem_cons]
          constructor
          · intro hc
            rcases hc with heq | ⟨hns, hmem⟩
            · exact absurd heq hid
            · exact ⟨fun hs => hns (Or.inr hs), Or.inr hmem⟩
          · intro ⟨hns, hmem⟩
            rcases hmem with heq | hmem'
            · exact absurd heq hid
            · exact Or.inr ⟨fun hs => by
                rcases hs with heq | hs'
                · exact hid heq
                · exact hns hs', hmem'⟩

theorem keepFirstAux_first_occurrence (l : List PresenceUser) :
    ∀ seen : List String, ∀ u ∈ keepFirstAux seen l,
      l.find? (fun v => v.userId == u.userId) = some u := by
  induction l with
  | nil => intro seen u hu; simp [keepFirstAux] at hu
  | cons w rest ih =>
      intro seen u hu
      unfold keepFirstAux at hu
      by_cases h : w.userId ∈ seen
      · rw [if_pos h] at hu
        have hne : w.userId ≠ u.userId := by
          intro heq
          exact (keepFirstAux_ids_nodup rest seen).2 u hu (heq ▸ h)
        rw [List.find?_cons_of_neg _ (by simpa using hne)]
        exact ih seen u hu
      · rw [if_neg h] at hu
        rcases List.mem_cons.mp hu with rfl | hu'
        · rw [List.find?_cons_of_pos _ (by simp)]
        · have hne : w.userId ≠ u.userId := by
            intro heq
            have := (keepFirstAux_ids_nodup rest (w.userId :: seen)).2 u hu'
            exact this (heq ▸ List.mem_cons_self _ _)
          rw [List.find?_cons_of_neg _ (by simpa using hne)]
          exact ih (w.userId :: seen) u hu'

/-- C7: the online-user list rebuilt by the presence sync handler has
pairwise-distinct user identifiers, contains an identifier exactly when
some tracked presence carries it, and each surviving entry is the first
occurrence of its identifier in the flattened snapshot. -/
theorem presence_sync_dedup (snapshot : List (String × List RawPresence)) :
    ((syncOnlineUsers snapshot).map PresenceUser.userId).Nodup ∧
    (∀ id : String,
      id ∈ (syncOnlineUsers snapshot).map PresenceUser.userId ↔
        id ∈ (flattenPresences snapshot).map PresenceUser.userId) ∧
    ∀ u ∈ syncOnlineUsers snapshot,
      (flattenPresences snapshot).find? (fun v => v.userId == u.userId) =
        some u := by
  refine ⟨(keepFirstAux_ids_nodup (flattenPresences snapshot) []).1,
    ?_, ?_⟩
  · intro id
    have h := keepFirstAux_mem_ids (flattenPresences snapshot) [] id
    simpa [syncOnlineUsers, uniqueUsers] using h
  · intro u hu
    exact keepFirstAux_first_occurrence (flattenPresences snapshot) [] u hu

theorem presence_sync_dedup_witness :
    ((syncOnlineUsers sampleSnapshot).map PresenceUser.userId).Nodup :=
  (presence_sync_dedup sampleSnapshot).1

/-- C8 counterexample: with the connection state `offline`, a
`visibilitychange` event that makes the tab visible does invoke
`connect()`, and the connection state leaves `offline`. -/
theorem visibility_triggers_connect_counterexample :
    samplePresenceOffline.connectionState = ConnectionState.offline ∧
    (onVisibilityChange samplePresenceOffline false true).2 = true ∧
    (onVisibilityChange samplePresenceOffline false true).1.connectionState =
      ConnectionState.reconnecting := by
  refine ⟨rfl, ?_, ?_⟩ <;> decide

/-- C8 (amended): a `visibilitychange` event to hidden never changes
state or triggers a connect attempt; a `visibilitychange` event to
visible triggers a connect attempt exactly when the connection state is
`offline`, and changes nothing otherwise. -/
theorem visibility_change_policy (s : PresenceModule) (hasUser : Bool) :
    onVisibilityChange s true hasUser = (s, false) ∧
    (s.connectionState ≠ ConnectionState.offline →
      onVisibilityChange s false hasUser = (s, false)) ∧
    (s.connectionState = ConnectionState.offline →
      onVisibilityChange s false hasUser = (connectStart s hasUser, true)) := by
  refine ⟨rfl, ?_, ?_⟩
  · intro h
    unfold onVisibilityChange
    simp [h]
  · intro h
    unfold onVisibilityChange
    simp [h]

theorem visibility_change_policy_witness :
    samplePresenceConnecting.connectionState ≠ ConnectionState.offline ∧
    onVisibilityChange samplePresenceConnecting false true =
      (samplePresenceConnecting, false) :=
  ⟨by decide,
   (visibility_change_policy samplePresenceConnecting true).2.1 (by decide)⟩

/-- C9: `disconnect()` cancels all pending reconnect, heartbeat and
keep-alive timers, removes the current channel, resets the store to
`offline` with an empty user list and null user id and channel, and is
idempotent. -/
theorem disconnect_resets_state (s : PresenceModule) :
    (disconnect s).reconnectTimer = none ∧
    (disconnect s).heartbeatTimer = false ∧
    (disconnect s).keepAliveTimer = false ∧
    (disconnect s).globalChannel = none ∧
    (disconnect s).connectionState = ConnectionState.offline ∧
    (disconnect s).onlineUsers = [] ∧
    (disconnect s).currentUserId = none ∧
    (disconnect s).channel = none ∧
    disconnect (disconnect s) = disconnect s := by
  refine ⟨rfl, rfl, rfl, rfl, rfl, rfl, rfl, rfl, rfl⟩

theorem disconnect_resets_state_witness :
    disconnect (disconnect samplePresenceConnecting) =
      disconnect samplePresenceConnecting :=
  (disconnect_resets_state samplePresenceConnecting).2.2.2.2.2.2.2.2

/-! ## Theorems about the session memory service -/

/-- C10: the turns array written by `addTurn` holds at most five turns:
it is the suffix of the previously stored turns with the new turn
appended, truncated to the last five entries, and it always ends with
the new turn. -/
theorem addTurn_keeps_last_five (stored : List ConversationTurn)
    (turn : ConversationTurn) :
    (addTurnWrittenTurns stored turn).length = min (stored.length + 1) 5 ∧
    addTurnWrittenTurns stored turn <:+ (stored ++ [turn]) ∧
    (addTurnWrittenTurns stored turn).getLast? = some turn := by
  refine ⟨?_, ?_, ?_⟩
  · unfold addTurnWrittenTurns
    simp only [List.length_drop, List.length_append, List.length_cons,
      List.length_nil]
    omega
  · exact List.drop_suffix _ _
  · unfold addTurnWrittenTurns
    obtain ⟨t, ht⟩ := (List.drop_suffix ((stored ++ [turn]).length - 5)
      (stored ++ [turn]))
    have hne : (stored ++ [turn]).drop ((stored ++ [turn]).length - 5) ≠
        [] := by
      intro hnil
      have := congrArg List.length hnil
      simp only [List.length_drop, List.length_append, List.length_cons,
        List.length_nil] at this
      omega
    calc ((stored ++ [turn]).drop
            ((stored ++ [turn]).length - 5)).getLast?
        = (t ++ (stored ++ [turn]).drop
            ((stored ++ [turn]).length - 5)).getLast? :=
          (List.getLast?_append_of_ne_nil t hne).symm
      _ = (stored ++ [turn]).getLast? := by rw [ht]
      _ = some turn := by
          rw [List.getLast?_append_of_ne_nil stored (by simp)]
          rfl

theorem addTurn_keeps_last_five_witness :
    (addTurnWrittenTurns [] sampleTurn).getLast? = some sampleTurn :=
  (addTurn_keeps_last_five [] sampleTurn).2.2

/-! ## Theorems about the audio processor -/

theorem rms_nonneg (frame : List Nat) : 0 ≤ rms frame :=
  Real.sqrt_nonneg _

theorem rms_le_one (frame : List Nat) (h : FrameOK frame) :
    rms frame ≤ 1 := by
  unfold rms
  rw [Real.sqrt_le_one]
  rcases eq_or_ne frame [] with rfl | hne
  · simp
  · have hlen : (0 : ℝ) < frame.length := by
      have hpos : 0 < frame.length := List.length_pos.mpr hne
      exact_mod_cast hpos
    rw [div_le_one hlen]
    have hterms :
        ∀ x ∈ frame.map fun b : Nat => ((b : ℝ) / 255) ^ 2, x ≤ 1 := by
      intro x hx
      obtain ⟨b, hb, rfl⟩ := List.mem_map.mp hx
      have hb255 : (b : ℝ) ≤ 255 := by exact_mod_cast h b hb
      have hb0 : (0 : ℝ) ≤ (b : ℝ) / 255 := by positivity
      have hb1 : ((b : ℝ) / 255) ≤ 1 := by
        rw [div_le_one (by norm_num)]
        exact hb255
      calc ((b : ℝ) / 255) ^ 2 ≤ 1 ^ 2 := pow_le_pow_left₀ hb0 hb1 2
        _ = 1 := one_pow 2
    have hsum := List.sum_le_card_nsmul
      (frame.map fun b : Nat => ((b : ℝ) / 255) ^ 2) 1 hterms
    simpa [nsmul_eq_mul] using hsum

theorem smoothed_in_unit :
    ∀ frames : List (List Nat), (∀ g ∈ frames, FrameOK g) →
      ∀ init : ℝ, 0 ≤ init → init ≤ 1 →
        0 ≤ frames.foldl stepVolume init ∧
          frames.foldl stepVolume init ≤ 1 := by
  intro frames
  induction frames with
  | nil =>
      intro _ init h0 h1
      simpa using ⟨h0, h1⟩
  | cons f rest ih =>
      intro hOK init h0 h1
      have hf : FrameOK f := hOK f (List.mem_cons_self _ _)
      have hOKr : ∀ g ∈ rest, FrameOK g := fun g hg =>
        hOK g (List.mem_cons_of_mem _ hg)
      have hr0 := rms_nonneg f
      have hr1 := rms_le_one f hf
      have hs0 : 0 ≤ stepVolume init f := by
        simp only [stepVolume, volumeSmoothingFactor]
        nlinarith
      have hs1 : stepVolume init f ≤ 1 := by
        simp only [stepVolume, volumeSmoothingFactor]
        nlinarith
      rw [List.foldl_cons]
      exact ih hOKr (stepVolume init f) hs0 hs1

/-- C1: starting from an initial smoothed value of 0, each `getVolume`
call on a new frame returns `0.7 · previous + 0.3 · rms(frame)` and the
result always lies in `[0, 1]`, provided every frame consists of byte
bin magnitudes. -/
theorem getVolume_smoothing (frames : List (List Nat)) (f : List Nat)
    (hOK : ∀ g ∈ frames, FrameOK g) (hf : FrameOK f) :
    smoothedVolume (frames ++ [f]) =
      0.7 * smoothedVolume frames + 0.3 * rms f ∧
    0 ≤ smoothedVolume (frames ++ [f]) ∧
    smoothedVolume (frames ++ [f]) ≤ 1 := by
  have hOKall : ∀ g ∈ frames ++ [f], FrameOK g := by
    intro g hg
    rcases List.mem_append.mp hg with h1 | h2
    · exact hOK g h1
    · rw [List.mem_singleton.mp h2]
      exact hf
  have hbounds := smoothed_in_unit (frames ++ [f]) hOKall 0 le_rfl
    zero_le_one
  refine ⟨?_, hbounds.1, hbounds.2⟩
  unfold smoothedVolume
  rw [List.foldl_append]
  show stepVolume (List.foldl stepVolume 0 frames) f = _
  unfold stepVolume volumeSmoothingFactor
  norm_num

theorem getVolume_smoothing_witness :
    (∀ g ∈ ([] : List (List Nat)), FrameOK g) ∧ FrameOK sampleFrame ∧
    (smoothedVolume ([] ++ [sampleFrame]) =
        0.7 * smoothedVolume [] + 0.3 * rms sampleFrame ∧
      0 ≤ smoothedVolume ([] ++ [sampleFrame]) ∧
      smoothedVolume ([] ++ [sampleFrame]) ≤ 1) :=
  ⟨by simp, by unfold FrameOK sampleFrame; decide,
   getVolume_smoothing [] sampleFrame (by simp)
     (by unfold FrameOK sampleFrame; decide)⟩

end AISphere
